import Mathlib

/-!
Shallow embedding of the jarvis-tibber-price-exporter core: the data model
(`SpotPrice`, `State` from `types.rs`), the Tibber response mapping
(`get_spot_prices` from `tibber_client.rs`), the state client (`read_state`,
`store_state` from `state_client.rs`), the retry wrapper (`retrySpawn`,
modelling `Retry::spawn(ExponentialBackoff::from_millis(100).map(jitter).take(3), op)`
from `tokio_retry`), and the orchestrator (`run`, modelling
`ExporterService::run` from `exporter_service.rs`).

Timestamps (`chrono::DateTime<Utc>`) are modelled as `Int` (epoch seconds, one
hour = 3600); price components (`f64` values that are only copied or set to the
literal `0.0`, never computed with) are modelled as `Rat`. External I/O (HTTP,
BigQuery, Kubernetes, the filesystem, `Uuid::new_v4`) is modelled by
environment records supplying each call's outcome; the delays and jitter of the
backoff strategy only affect timing, so the strategy iterator is modelled by
the number of delays it yields.
-/

/-- Mirrors `SpotPrice` in `types.rs`; the Rust field `from` is called `from_`
here because `from` is a Lean keyword. -/
structure SpotPrice where
  id : Option String
  source : Option String
  from_ : Int
  till : Int
  market_price : Rat
  market_price_tax : Rat
  sourcing_markup_price : Rat
  energy_tax_price : Rat
deriving DecidableEq, Repr

/-- Mirrors `State` in `types.rs`. -/
structure State where
  future_spot_prices : List SpotPrice
  last_from : Int
deriving DecidableEq, Repr

/-- Mirrors `SpotPricePrice` in `types.rs`. -/
structure SpotPricePrice where
  energy : Rat
  tax : Rat
  currency : String
  starts_at : Int
deriving DecidableEq, Repr

/-- Mirrors `SpotPriceInfo` in `types.rs`. -/
structure SpotPriceInfo where
  today : List SpotPricePrice
  tomorrow : List SpotPricePrice
deriving DecidableEq, Repr

/-- Mirrors `SpotPriceSubscription` in `types.rs`. -/
structure SpotPriceSubscription where
  price_info : SpotPriceInfo
deriving DecidableEq, Repr

/-- Mirrors `SpotPriceHome` in `types.rs`. -/
structure SpotPriceHome where
  current_subscription : SpotPriceSubscription
deriving DecidableEq, Repr

/-- Mirrors `SpotPriceViewer` in `types.rs`. -/
structure SpotPriceViewer where
  homes : List SpotPriceHome
deriving DecidableEq, Repr

/-- Mirrors `SpotPriceData` in `types.rs`. -/
structure SpotPriceData where
  viewer : SpotPriceViewer
deriving DecidableEq, Repr

/-- Mirrors `SpotPriceResponse` in `types.rs`. -/
structure SpotPriceResponse where
  data : SpotPriceData
deriving DecidableEq, Repr

/-- Number of delays yielded by the strategy iterator
`ExponentialBackoff::from_millis(100).map(jitter).take(3)`: after the initial
attempt, `tokio_retry::Retry` performs one further attempt per delay. -/
def retryDelays : Nat := 3

/-- Models the attempt loop of `tokio_retry::Retry::spawn`: run `op` at attempt
number `attempt`; on success return the value together with the number of
attempts made, on failure consume one delay from the strategy iterator
(`remaining`) and retry, and when the iterator is exhausted surface the last
attempt's error unchanged. -/
def retryGo (op : Nat → Except String A) : Nat → Nat → Except String A × Nat
  | attempt, remaining =>
    match op attempt with
    | .ok a => (.ok a, attempt)
    | .error e =>
      match remaining with
      | 0 => (.error e, attempt)
      | r + 1 => retryGo op (attempt + 1) r

/-- Models `Retry::spawn(ExponentialBackoff::from_millis(100).map(jitter).take(3), op)`:
attempts are numbered from 1 and the iterator yields `retryDelays = 3` delays. -/
def retrySpawn (op : Nat → Except String A) : Except String A × Nat :=
  retryGo op 1 retryDelays

/-- One hour (`chrono::Duration::hours(1)`) in epoch seconds. -/
def oneHour : Int := 3600

/-- Loop body shared by the two `for` loops of `TibberClient::get_spot_prices`
in `tibber_client.rs`: push one converted quotation per element onto the
accumulator. -/
def pushQuotes (acc : List SpotPrice) : List SpotPricePrice → List SpotPrice
  | [] => acc
  | q :: rest =>
    let sp : SpotPrice :=
      { id := none, source := none, from_ := q.starts_at,
        till := q.starts_at + oneHour, market_price := q.energy,
        market_price_tax := q.tax, sourcing_markup_price := 0,
        energy_tax_price := 0 }
    pushQuotes (acc ++ [sp]) rest

/-- Models `TibberClient::get_spot_prices` after a successfully parsed
response: the Rust code indexes `homes[0]` unconditionally in both loops,
which panics when `homes` is empty; the panic is modelled as `none`. -/
def get_spot_prices (resp : SpotPriceResponse) : Option (List SpotPrice) :=
  match resp.data.viewer.homes with
  | [] => none
  | home :: _ =>
    let sp := pushQuotes [] home.current_subscription.price_info.today
    some (pushQuotes sp home.current_subscription.price_info.tomorrow)

/-- The per-quotation conversion performed by both loops of
`get_spot_prices`, as a function (used to state what `pushQuotes` pushes). -/
def quoteToSpotPrice (q : SpotPricePrice) : SpotPrice :=
  { id := none, source := none, from_ := q.starts_at,
    till := q.starts_at + oneHour, market_price := q.energy,
    market_price_tax := q.tax, sourcing_markup_price := 0,
    energy_tax_price := 0 }

/-- Models `StateClient::read_state` from `state_client.rs`: `readFile` is the
outcome of `fs::read_to_string(&self.config.state_file_path)` and `parseState`
the outcome of `serde_yaml::from_str`. -/
def read_state (enable : Bool) (readFile : Except String String)
    (parseState : String → Except String State) : Except String (Option State) :=
  if !enable then .ok none
  else
    match readFile with
    | .error _ => .ok none
    | .ok contents =>
      match parseState contents with
      | .error _ => .ok none
      | .ok st => .ok (some st)

/-- Models the `k8s_openapi` field `ConfigMap.data : Option<BTreeMap<String, String>>`
as an association list. -/
structure ConfigMap where
  data : Option (List (String × String))
deriving DecidableEq, Repr

/-- Models `BTreeMap::insert`: replace the value at an existing key, otherwise
add the entry. -/
def insertData (k v : String) : List (String × String) → List (String × String)
  | [] => [(k, v)]
  | (k2, v2) :: rest => if k2 = k then (k, v) :: rest else (k2, v2) :: insertData k v rest

/-- Outcomes of the external calls made by `StateClient::store_state`:
`get_state_configmap`, `serde_yaml::to_string`, `Path::file_name` plus
`to_str` on the configured state-file path, and `update_state_configmap`. -/
structure StoreEnv where
  getConfigmap : Except String ConfigMap
  serialize : State → Except String String
  fileNameOf : String → Option String
  replaceConfigmap : ConfigMap → Except String Unit

/-- Models `StateClient::store_state` from `state_client.rs`. -/
def store_state (enable : Bool) (statePath : String) (envS : StoreEnv)
    (state : State) : Except String Unit :=
  if !enable then .ok ()
  else
    match envS.getConfigmap with
    | .error e => .error e
    | .ok cm =>
      match envS.serialize state with
      | .error e => .error e
      | .ok yaml =>
        match envS.fileNameOf statePath with
        | none => .error "No filename found in path"
        | some name =>
          let d := match cm.data with
            | some d => d
            | none => []
          envS.replaceConfigmap { cm with data := some (insertData name yaml d) }

/-- Environment of one `ExporterService::run` invocation: the clock captured at
run start (`Utc::now()`), the configured source tag, the UUID generator
(`Uuid::new_v4`, indexed by loop iteration), and the outcome of every external
call — per attempt number for the two retried operations. -/
structure RunEnv where
  now : Int
  source : String
  genId : Nat → String
  initTable : Except String Unit
  readState : Except String (Option State)
  fetch : Nat → Except String (List SpotPrice)
  insert : SpotPrice → Nat → Except String Unit
  storeState : State → Except String Unit

/-- Record update at the top of the loop body of `run`: assign a freshly
generated id and the configured source tag to the cloned record. -/
def decorate (env : RunEnv) (i : Nat) (sp : SpotPrice) : SpotPrice :=
  { sp with id := some (env.genId i), source := some env.source }

/-- Condition `spot_price.till > now` guarding the push onto `future_spot_prices`. -/
def isFuture (now : Int) (sp : SpotPrice) : Bool :=
  decide (now < sp.till)

/-- Value of `write_spot_price` in `run`: `spot_price.from > st.last_from` when
a previous state exists, `true` otherwise. -/
def shouldWrite (state : Option State) (sp : SpotPrice) : Bool :=
  match state with
  | some st => decide (st.last_from < sp.from_)
  | none => true

/-- The `for spot_price in &spot_prices` loop of `run`, carrying
`future_spot_prices`, `last_from` and (for observability) the list of records
successfully inserted so far; an insert failure after exhausted retries aborts
the loop with that error. -/
def runLoop (env : RunEnv) (state : Option State) :
    List SpotPrice → Nat → List SpotPrice → Option Int → List SpotPrice →
      List SpotPrice × List SpotPrice × Option Int × Option String
  | [], _, fut, lf, ws => (fut, ws, lf, none)
  | sp :: rest, i, fut, lf, ws =>
    let sp2 := decorate env i sp
    let fut2 := if isFuture env.now sp2 then fut ++ [sp2] else fut
    if shouldWrite state sp2 then
      match (retrySpawn (env.insert sp2)).1 with
      | .ok _ => runLoop env state rest (i + 1) fut2 (some sp2.from_) (ws ++ [sp2])
      | .error e => (fut2, ws, lf, some e)
    else
      runLoop env state rest (i + 1) fut2 lf ws

/-- Observable outcome of one run: the records successfully inserted into the
sink in order, the state passed to `store_state` when that call was reached
(`none` when it was not), the number of fetch attempts made, and the run's
result. -/
structure RunTrace where
  writes : List SpotPrice
  storeArg : Option State
  fetchAttempts : Nat
  result : Except String Unit
deriving Repr

/-- Models `ExporterService::run` from `exporter_service.rs`. -/
def run (env : RunEnv) : RunTrace :=
  match env.initTable with
  | .error e => { writes := [], storeArg := none, fetchAttempts := 0, result := .error e }
  | .ok _ =>
    match env.readState with
    | .error e => { writes := [], storeArg := none, fetchAttempts := 0, result := .error e }
    | .ok state =>
      let fetched := retrySpawn env.fetch
      match fetched.1 with
      | .error e =>
        { writes := [], storeArg := none, fetchAttempts := fetched.2, result := .error e }
      | .ok spot_prices =>
        match runLoop env state spot_prices 0 [] none [] with
        | (_, ws, _, some e) =>
          { writes := ws, storeArg := none, fetchAttempts := fetched.2, result := .error e }
        | (fut, ws, some l, none) =>
          let new_state : State := { future_spot_prices := fut, last_from := l }
          { writes := ws, storeArg := some new_state, fetchAttempts := fetched.2,
            result := env.storeState new_state }
        | (_, ws, none, none) =>
          { writes := ws, storeArg := none, fetchAttempts := fetched.2, result := .ok () }

/-- The decorated fetched list: element number `i` of the loop gets id
`genId i` and the configured source tag. -/
def decorateFrom (env : RunEnv) (i : Nat) : List SpotPrice → List SpotPrice
  | [] => []
  | sp :: rest => decorate env i sp :: decorateFrom env (i + 1) rest

/-- The records of `l` classified as future in a run whose clock reads `now`. -/
def futureRecords (now : Int) (l : List SpotPrice) : List SpotPrice :=
  l.filter (isFuture now)

/-- The records of `l` classified as new relative to the previous state. -/
def writtenRecords (state : Option State) (l : List SpotPrice) : List SpotPrice :=
  l.filter (shouldWrite state)

/-- Final value of `last_from` given its prior value and the records written
after that point. -/
def lastFromAfter (lf : Option Int) (l : List SpotPrice) : Option Int :=
  match l.getLast? with
  | some sp => some sp.from_
  | none => lf

/-- The state passed to `store_state` by a run that completes its loop with
every insert succeeding: absent when nothing was classified as new, otherwise
the future cache together with the window start of the last record written. -/
def runStoreArg (env : RunEnv) (st0 : Option State) (S : List SpotPrice) : Option State :=
  match (writtenRecords st0 (decorateFrom env 0 S)).getLast? with
  | none => none
  | some l =>
    some { future_spot_prices := futureRecords env.now (decorateFrom env 0 S),
           last_from := l.from_ }

/-- The result of a run that completes its loop with every insert succeeding:
`ok` when no state write happens, otherwise the outcome of the state write. -/
def runResultSpec (env : RunEnv) (st0 : Option State) (S : List SpotPrice) :
    Except String Unit :=
  match (writtenRecords st0 (decorateFrom env 0 S)).getLast? with
  | none => .ok ()
  | some l =>
    env.storeState { future_spot_prices := futureRecords env.now (decorateFrom env 0 S),
                     last_from := l.from_ }

/-- Fixture record used by concrete instantiations: one hourly quotation
window [100, 3700). -/
def wsA : SpotPrice :=
  { id := none, source := none, from_ := 100, till := 3700, market_price := 1,
    market_price_tax := 2, sourcing_markup_price := 0, energy_tax_price := 0 }

/-- Fixture record used by concrete instantiations: one hourly quotation
window [3700, 7300). -/
def wsB : SpotPrice :=
  { id := none, source := none, from_ := 3700, till := 7300, market_price := 3,
    market_price_tax := 4, sourcing_markup_price := 0, energy_tax_price := 0 }

/-- Fixture previous state with cursor 100: `wsA` is stale, `wsB` is new. -/
def wStatePrev : State :=
  { future_spot_prices := [], last_from := 100 }

/-- Fixture environment: previous state `wStatePrev`, fetch returns
`[wsA, wsB]` at the first attempt, every external call succeeds. -/
def wEnv : RunEnv :=
  { now := 200, source := "tibber", genId := fun i => toString i,
    initTable := .ok (), readState := .ok (some wStatePrev),
    fetch := fun _ => .ok [wsA, wsB], insert := fun _ _ => .ok (),
    storeState := fun _ => .ok () }

/-- Fixture environment with no previous state. -/
def wEnvNoState : RunEnv :=
  { wEnv with readState := .ok none }

/-- The state persisted by a run of `wEnv`: both decorated records are future
at `now = 200`, and the cursor advances to `wsB`'s window start. -/
def wS1 : State :=
  { future_spot_prices := [decorate wEnv 0 wsA, decorate wEnv 1 wsB],
    last_from := 3700 }

/-- Fixture environment for a second run: same fetched set, previous state
`wS1` as produced by the first run of `wEnv`. -/
def wEnv2 : RunEnv :=
  { wEnv with readState := .ok (some wS1) }

/-- Fixture environment whose fetch fails on every attempt. -/
def wEnvFetchFail : RunEnv :=
  { wEnv with fetch := fun _ => .error "boom" }

/-- Fixture quotation for the first hour of today. -/
def wQ1 : SpotPricePrice :=
  { energy := 1, tax := 2, currency := "EUR", starts_at := 100 }

/-- Fixture quotation for the first hour of tomorrow. -/
def wQ2 : SpotPricePrice :=
  { energy := 3, tax := 4, currency := "EUR", starts_at := 3700 }

/-- Fixture home whose subscription quotes one hour today and one tomorrow. -/
def wHome : SpotPriceHome :=
  { current_subscription :=
      { price_info := { today := [wQ1], tomorrow := [wQ2] } } }

/-- Fixture parsed pricing response with one home, one quotation today and one
tomorrow. -/
def wResp : SpotPriceResponse :=
  { data := { viewer := { homes := [wHome] } } }

/-- An operation that succeeds on its first attempt is attempted exactly once. -/
theorem retrySpawn_first_ok (op : Nat → Except String A) (a : A)
    (h : op 1 = .ok a) : retrySpawn op = (.ok a, 1) := by
  simp [retrySpawn, retryDelays, retryGo, h]

/-- Threading one written record through `lastFromAfter`. -/
theorem lastFromAfter_cons (lf : Option Int) (x : SpotPrice) (l : List SpotPrice) :
    lastFromAfter lf (x :: l) = lastFromAfter (some x.from_) l := by
  cases l with
  | nil => rfl
  | cons y t =>
    rw [lastFromAfter, lastFromAfter, List.getLast?_cons_cons]
    cases h : (y :: t).getLast? with
    | none => simp [List.getLast?_eq_none_iff] at h
    | some a => simp [h]

/-- Decoration changes only `id` and `source`. -/
theorem decorate_from_eq (env : RunEnv) (i : Nat) (sp : SpotPrice) :
    (decorate env i sp).from_ = sp.from_ := rfl

/-- Decoration changes only `id` and `source`. -/
theorem decorate_till_eq (env : RunEnv) (i : Nat) (sp : SpotPrice) :
    (decorate env i sp).till = sp.till := rfl

/-- Every decorated record corresponds to a fetched record with the same window. -/
theorem mem_decorateFrom (env : RunEnv) :
    ∀ (l : List SpotPrice) (i : Nat) (r : SpotPrice), r ∈ decorateFrom env i l →
      ∃ s ∈ l, r.from_ = s.from_ ∧ r.till = s.till := by
  intro l
  induction l with
  | nil => intro i r h; simp [decorateFrom] at h
  | cons sp rest ih =>
    intro i r h
    simp only [decorateFrom, List.mem_cons] at h
    rcases h with h | h
    · exact ⟨sp, List.mem_cons_self sp rest, by simp [h, decorate_from_eq, decorate_till_eq]⟩
    · rcases ih (i + 1) r h with ⟨s, hs, hfrom, htill⟩
      exact ⟨s, List.mem_cons_of_mem sp hs, hfrom, htill⟩

/-- Every fetched record has a decorated counterpart with the same window start. -/
theorem decorateFrom_mem (env : RunEnv) :
    ∀ (l : List SpotPrice) (i : Nat) (s : SpotPrice), s ∈ l →
      ∃ r ∈ decorateFrom env i l, r.from_ = s.from_ := by
  intro l
  induction l with
  | nil => intro i s h; simp at h
  | cons sp rest ih =>
    intro i s h
    rcases List.mem_cons.mp h with h | h
    · exact ⟨decorate env i sp, by simp [decorateFrom], by simp [h, decorate_from_eq]⟩
    · rcases ih (i + 1) s h with ⟨r, hr, hfrom⟩
      exact ⟨r, by simp [decorateFrom, List.mem_cons]; right; exact hr, hfrom⟩

/-- Decoration preserves the non-decreasing window-start order of the fetch. -/
theorem decorateFrom_pairwise (env : RunEnv) :
    ∀ (l : List SpotPrice) (i : Nat),
      l.Pairwise (fun a b => a.from_ ≤ b.from_) →
      (decorateFrom env i l).Pairwise (fun a b => a.from_ ≤ b.from_) := by
  intro l
  induction l with
  | nil => intro i _; simp [decorateFrom]
  | cons sp rest ih =>
    intro i h
    rcases List.pairwise_cons.mp h with ⟨hhead, htail⟩
    refine List.pairwise_cons.mpr ⟨?_, ih (i + 1) htail⟩
    intro b hb
    rcases mem_decorateFrom env rest (i + 1) b hb with ⟨s, hs, hfrom, _⟩
    rw [decorate_from_eq, hfrom]
    exact hhead s hs

/-- The last element of a list, when present, is a member. -/
theorem getLast?_mem_self : ∀ {l : List SpotPrice} {a : SpotPrice},
    l.getLast? = some a → a ∈ l := by
  intro l
  induction l with
  | nil => intro a h; simp at h
  | cons y t ih =>
    intro a h
    cases t with
    | nil => simp at h; simp [h]
    | cons z t2 =>
      rw [List.getLast?_cons_cons] at h
      exact List.mem_cons_of_mem y (ih h)

/-- In a list sorted by non-decreasing window start, the last element bounds
every member. -/
theorem le_getLast_of_sorted : ∀ (l : List SpotPrice),
    l.Pairwise (fun a b => a.from_ ≤ b.from_) →
    ∀ a, l.getLast? = some a → ∀ x ∈ l, x.from_ ≤ a.from_ := by
  intro l
  induction l with
  | nil => intro _ a h; simp at h
  | cons y t ih =>
    intro hp a hl x hx
    rcases List.pairwise_cons.mp hp with ⟨hhead, htail⟩
    cases t with
    | nil =>
      simp at hl
      rcases List.mem_singleton.mp hx with rfl
      simp [hl]
    | cons z t2 =>
      rw [List.getLast?_cons_cons] at hl
      rcases List.mem_cons.mp hx with rfl | hx2
      · exact hhead a (getLast?_mem_self hl)
      · exact ih htail a hl x hx2

/-- Characterization of the write loop when every sink insert succeeds: the
future cache collects the decorated records whose window end is after `now`,
the writes are exactly the decorated records classified as new, `last_from`
ends at the window start of the last record written, and no error occurs. -/
theorem runLoop_all_ok (env : RunEnv) (state : Option State)
    (h3 : ∀ sp a, env.insert sp a = .ok ())
    (l : List SpotPrice) (i : Nat) (fut : List SpotPrice) (lf : Option Int)
    (ws : List SpotPrice) :
    runLoop env state l i fut lf ws =
      (fut ++ futureRecords env.now (decorateFrom env i l),
        ws ++ writtenRecords state (decorateFrom env i l),
        lastFromAfter lf (writtenRecords state (decorateFrom env i l)), none) := by
  induction l generalizing i fut lf ws with
  | nil =>
    simp [runLoop, decorateFrom, futureRecords, writtenRecords, lastFromAfter]
  | cons sp rest ih =>
    have hins : retrySpawn (env.insert (decorate env i sp)) = (.ok (), 1) :=
      retrySpawn_first_ok _ () (h3 _ 1)
    simp only [runLoop, decorateFrom, futureRecords, writtenRecords,
      List.filter_cons, hins]
    cases hw : shouldWrite state (decorate env i sp) with
    | false =>
      simp only [Bool.false_eq_true, if_false]
      cases hf : isFuture env.now (decorate env i sp) with
      | false =>
        simpa [futureRecords, writtenRecords] using ih (i + 1) fut lf ws
      | true =>
        simpa [futureRecords, writtenRecords, List.append_assoc]
          using ih (i + 1) (fut ++ [decorate env i sp]) lf ws
    | true =>
      simp only [if_true, lastFromAfter_cons]
      cases hf : isFuture env.now (decorate env i sp) with
      | false =>
        simpa [futureRecords, writtenRecords, List.append_assoc]
          using ih (i + 1) fut (some (decorate env i sp).from_)
            (ws ++ [decorate env i sp])
      | true =>
        simpa [futureRecords, writtenRecords, List.append_assoc]
          using ih (i + 1) (fut ++ [decorate env i sp])
            (some (decorate env i sp).from_) (ws ++ [decorate env i sp])

/-- Characterization of a run whose schema init, state read and fetch succeed
and whose sink inserts all succeed. -/
theorem run_spec (env : RunEnv) (st0 : Option State) (S : List SpotPrice)
    (h1 : env.initTable = .ok ()) (hr : env.readState = .ok st0)
    (h2 : (retrySpawn env.fetch).1 = .ok S)
    (h3 : ∀ sp a, env.insert sp a = .ok ()) :
    run env =
      { writes := writtenRecords st0 (decorateFrom env 0 S),
        storeArg := runStoreArg env st0 S,
        fetchAttempts := (retrySpawn env.fetch).2,
        result := runResultSpec env st0 S } := by
  have hl := runLoop_all_ok env st0 h3 S 0 [] none []
  simp only [List.nil_append] at hl
  simp only [run, h1, hr, h2, hl, runStoreArg, runResultSpec]
  cases hW : (writtenRecords st0 (decorateFrom env 0 S)).getLast? with
  | none => simp [lastFromAfter, hW]
  | some l => simp [lastFromAfter, hW]

/-- Characterization of the write loop when no record is classified as new:
the sink is never touched and `last_from` keeps its prior value. -/
theorem runLoop_no_write (env : RunEnv) (state : Option State)
    (l : List SpotPrice) (i : Nat)
    (h : ∀ r ∈ decorateFrom env i l, shouldWrite state r = false)
    (fut : List SpotPrice) (lf : Option Int) (ws : List SpotPrice) :
    runLoop env state l i fut lf ws =
      (fut ++ futureRecords env.now (decorateFrom env i l), ws, lf, none) := by
  induction l generalizing i fut with
  | nil =>
    simp [runLoop, decorateFrom, futureRecords]
  | cons sp rest ih =>
    have hw : shouldWrite state (decorate env i sp) = false :=
      h (decorate env i sp) (by simp [decorateFrom])
    have hrest : ∀ r ∈ decorateFrom env (i + 1) rest, shouldWrite state r = false := by
      intro r hr
      exact h r (by simp [decorateFrom, List.mem_cons]; right; exact hr)
    simp only [runLoop, hw, Bool.false_eq_true, if_false, decorateFrom,
      futureRecords, List.filter_cons]
    cases hf : isFuture env.now (decorate env i sp) with
    | false =>
      simpa [futureRecords] using ih (i + 1) hrest fut
    | true =>
      simpa [futureRecords, List.append_assoc]
        using ih (i + 1) hrest (fut ++ [decorate env i sp])

/-- A run in which no fetched record is classified as new performs no sink
write, never calls `store_state` and succeeds. -/
theorem run_spec_no_write (env : RunEnv) (st0 : Option State) (S : List SpotPrice)
    (h1 : env.initTable = .ok ()) (hr : env.readState = .ok st0)
    (h2 : (retrySpawn env.fetch).1 = .ok S)
    (hw : ∀ r ∈ decorateFrom env 0 S, shouldWrite st0 r = false) :
    run env =
      { writes := [], storeArg := none,
        fetchAttempts := (retrySpawn env.fetch).2, result := .ok () } := by
  have hl := runLoop_no_write env st0 S 0 hw [] none []
  simp only [List.nil_append] at hl
  simp only [run, h1, hr, h2, hl]

/-- When there is no previous state every record is classified as new. -/
theorem writtenRecords_none (l : List SpotPrice) : writtenRecords none l = l := by
  induction l with
  | nil => rfl
  | cons sp rest ih =>
    simp only [writtenRecords, List.filter_cons, shouldWrite, if_true] at ih ⊢
    simp [ih]

/-- C1: in a run whose schema init, state read and fetch succeed and whose sink
inserts all succeed, a fetched (decorated) record is written to the sink iff
there is no previous state or its window start exceeds the previous cursor
`last_from`; with no previous state every fetched record is written, and
skipped records produce no sink write (the writes are exactly the records
classified as new). -/
theorem dedup_correct (env : RunEnv) (st0 : Option State) (S : List SpotPrice)
    (h1 : env.initTable = .ok ()) (hr : env.readState = .ok st0)
    (h2 : (retrySpawn env.fetch).1 = .ok S)
    (h3 : ∀ sp a, env.insert sp a = .ok ()) :
    (run env).writes = writtenRecords st0 (decorateFrom env 0 S) ∧
    (∀ st r, st0 = some st →
      (r ∈ (run env).writes ↔ r ∈ decorateFrom env 0 S ∧ st.last_from < r.from_)) ∧
    (st0 = none → (run env).writes = decorateFrom env 0 S) := by
  have hs := run_spec env st0 S h1 hr h2 h3
  refine ⟨by rw [hs], ?_, ?_⟩
  · intro st r h0
    subst h0
    rw [hs]
    simp [writtenRecords, List.mem_filter, shouldWrite]
  · intro h0
    subst h0
    rw [hs]
    exact writtenRecords_none _

/-- C1 witness: the fixture environment satisfies the hypotheses of
`dedup_correct` and its conclusion evaluates at `wEnv`. -/
theorem dedup_correct_witness :
    (run wEnv).writes = writtenRecords (some wStatePrev) (decorateFrom wEnv 0 [wsA, wsB]) ∧
    (∀ st r, some wStatePrev = some st →
      (r ∈ (run wEnv).writes ↔ r ∈ decorateFrom wEnv 0 [wsA, wsB] ∧ st.last_from < r.from_)) ∧
    (some wStatePrev = none → (run wEnv).writes = decorateFrom wEnv 0 [wsA, wsB]) :=
  dedup_correct wEnv (some wStatePrev) [wsA, wsB] rfl rfl rfl (fun _ _ => rfl)

/-- C2: in a successful run (schema init, state read, fetch, all inserts and
the state write succeed), `store_state` is called iff at least one record was
written; the persisted cursor is the window start of the last record written;
starting from an existing state the cursor never decreases (it strictly
increases); and when nothing new was written the state is left untouched. -/
theorem state_overwrite_cursor (env : RunEnv) (st0 : Option State)
    (S : List SpotPrice)
    (h1 : env.initTable = .ok ()) (hr : env.readState = .ok st0)
    (h2 : (retrySpawn env.fetch).1 = .ok S)
    (h3 : ∀ sp a, env.insert sp a = .ok ())
    (h4 : ∀ s, env.storeState s = .ok ()) :
    ((run env).storeArg = none ↔ (run env).writes = []) ∧
    (∀ s, (run env).storeArg = some s →
      ∃ l, (run env).writes.getLast? = some l ∧ s.last_from = l.from_) ∧
    (∀ st s, st0 = some st → (run env).storeArg = some s →
      st.last_from ≤ s.last_from) ∧
    (run env).result = .ok () := by
  have hs := run_spec env st0 S h1 hr h2 h3
  rw [hs]
  cases hW : (writtenRecords st0 (decorateFrom env 0 S)).getLast? with
  | none =>
    have hWnil : writtenRecords st0 (decorateFrom env 0 S) = [] :=
      List.getLast?_eq_none_iff.mp hW
    refine ⟨?_, ?_, ?_, ?_⟩
    · simp only [runStoreArg]
      rw [hW]
      simp [hWnil]
    · intro s habs
      simp only [runStoreArg, hW] at habs
      exact Option.noConfusion habs
    · intro st s h0 habs
      simp only [runStoreArg, hW] at habs
      exact Option.noConfusion habs
    · simp only [runResultSpec, hW]
  | some l =>
    refine ⟨?_, ?_, ?_, ?_⟩
    · simp only [runStoreArg, hW]
      constructor
      · intro habs
        simp at habs
      · intro habs
        rw [habs] at hW
        simp at hW
    · intro s hsome
      simp only [runStoreArg, hW, Option.some.injEq] at hsome
      subst hsome
      exact ⟨l, rfl, rfl⟩

    · intro st s h0 hsome
      subst h0
      simp only [runStoreArg, hW, Option.some.injEq] at hsome
      subst hsome
      have hmem : l ∈ writtenRecords (some st) (decorateFrom env 0 S) :=
        getLast?_mem_self hW
      have hwl := (List.mem_filter.mp hmem).2
      simp only [shouldWrite, decide_eq_true_eq] at hwl
      exact le_of_lt hwl
    · simp only [runResultSpec, hW, h4]

/-- C2 witness: the fixture environment satisfies the hypotheses of
`state_overwrite_cursor` and its conclusion evaluates at `wEnv`. -/
theorem state_overwrite_cursor_witness :
    ((run wEnv).storeArg = none ↔ (run wEnv).writes = []) ∧
    (∀ s, (run wEnv).storeArg = some s →
      ∃ l, (run wEnv).writes.getLast? = some l ∧ s.last_from = l.from_) ∧
    (∀ st s, some wStatePrev = some st → (run wEnv).storeArg = some s →
      st.last_from ≤ s.last_from) ∧
    (run wEnv).result = .ok () :=
  state_overwrite_cursor wEnv (some wStatePrev) [wsA, wsB] rfl rfl rfl
    (fun _ _ => rfl) (fun _ => rfl)

/-- C3: if a first run over a fetched set `S` in non-decreasing window-start
order succeeds, all its inserts succeed and it persists a new state `s1`, then
a second run that reads `s1` and fetches the same set `S` performs zero sink
writes, never calls `store_state`, and succeeds. -/
theorem run_idempotent (env1 env2 : RunEnv) (st0 : Option State)
    (S : List SpotPrice)
    (hsort : S.Pairwise (fun a b => a.from_ ≤ b.from_))
    (h1a : env1.initTable = .ok ()) (hra : env1.readState = .ok st0)
    (h2a : (retrySpawn env1.fetch).1 = .ok S)
    (h3a : ∀ sp a, env1.insert sp a = .ok ())
    (s1 : State) (hst : (run env1).storeArg = some s1)
    (h1b : env2.initTable = .ok ()) (hrb : env2.readState = .ok (some s1))
    (h2b : (retrySpawn env2.fetch).1 = .ok S) :
    (run env2).writes = [] ∧ (run env2).storeArg = none ∧
    (run env2).result = .ok () := by
  have hs1 := run_spec env1 st0 S h1a hra h2a h3a
  rw [hs1] at hst
  cases hW : (writtenRecords st0 (decorateFrom env1 0 S)).getLast? with
  | none =>
    simp only [runStoreArg, hW] at hst
    exact Option.noConfusion hst
  | some l =>
    simp only [runStoreArg, hW, Option.some.injEq] at hst
    have hs1last : s1.last_from = l.from_ := by rw [← hst]
    have hsorted1 : (decorateFrom env1 0 S).Pairwise (fun a b => a.from_ ≤ b.from_) :=
      decorateFrom_pairwise env1 S 0 hsort
    have hWsorted :
        (writtenRecords st0 (decorateFrom env1 0 S)).Pairwise
          (fun a b => a.from_ ≤ b.from_) :=
      hsorted1.sublist (List.filter_sublist _)
    have hlmem : l ∈ writtenRecords st0 (decorateFrom env1 0 S) :=
      getLast?_mem_self hW
    have hbound : ∀ x ∈ S, x.from_ ≤ l.from_ := by
      intro x hx
      rcases decorateFrom_mem env1 S 0 x hx with ⟨r, hr, hrfrom⟩
      rw [← hrfrom]
      by_cases hwr : shouldWrite st0 r = true
      · exact le_getLast_of_sorted _ hWsorted l hW r (List.mem_filter.mpr ⟨hr, hwr⟩)
      · cases st0 with
        | none => simp [shouldWrite] at hwr
        | some st =>
          have hstale : ¬st.last_from < r.from_ := by
            simpa [shouldWrite] using hwr
          have hlnew : st.last_from < l.from_ := by
            have := (List.mem_filter.mp hlmem).2
            simpa [shouldWrite] using this
          exact le_trans (not_lt.mp hstale) (le_of_lt hlnew)
    have hnw : ∀ r ∈ decorateFrom env2 0 S, shouldWrite (some s1) r = false := by
      intro r hr
      rcases mem_decorateFrom env2 S 0 r hr with ⟨x, hx, hrfrom, _⟩
      simp only [shouldWrite]
      rw [decide_eq_false_iff_not, hs1last, hrfrom]
      exact not_lt.mpr (hbound x hx)
    rw [run_spec_no_write env2 (some s1) S h1b hrb h2b hnw]
    exact ⟨rfl, rfl, rfl⟩

/-- C3 witness: a first run of `wEnv` persists `wS1`; the second run `wEnv2`
reads it, fetches the same records and writes nothing. -/
theorem run_idempotent_witness :
    (run wEnv2).writes = [] ∧ (run wEnv2).storeArg = none ∧
    (run wEnv2).result = .ok () :=
  run_idempotent wEnv wEnv2 (some wStatePrev) [wsA, wsB]
    (by norm_num [List.pairwise_cons, wsA, wsB]) rfl rfl rfl (fun _ _ => rfl)
    wS1 rfl rfl rfl rfl

/-- C4: in a run whose schema init, state read and fetch succeed, whose sink
inserts all succeed and which persists a new state, the persisted
`future_spot_prices` are exactly the decorated fetched records whose window
end exceeds the single clock snapshot `now` captured at run start (the model
has one `now` per run by construction; the loop never re-reads it). -/
theorem future_classification (env : RunEnv) (st0 : Option State)
    (S : List SpotPrice)
    (h1 : env.initTable = .ok ()) (hr : env.readState = .ok st0)
    (h2 : (retrySpawn env.fetch).1 = .ok S)
    (h3 : ∀ sp a, env.insert sp a = .ok ()) :
    ∀ s, (run env).storeArg = some s →
      s.future_spot_prices = futureRecords env.now (decorateFrom env 0 S) ∧
      (∀ r, r ∈ s.future_spot_prices ↔
        r ∈ decorateFrom env 0 S ∧ env.now < r.till) := by
  intro s hsome
  rw [run_spec env st0 S h1 hr h2 h3] at hsome
  cases hW : (writtenRecords st0 (decorateFrom env 0 S)).getLast? with
  | none =>
    simp only [runStoreArg, hW] at hsome
    exact Option.noConfusion hsome
  | some l =>
    simp only [runStoreArg, hW, Option.some.injEq] at hsome
    subst hsome
    refine ⟨rfl, ?_⟩
    intro r
    simp [futureRecords, List.mem_filter, isFuture]

/-- C4 witness: the fixture environment satisfies the hypotheses of
`future_classification` and its conclusion evaluates at `wEnv` and `wS1`. -/
theorem future_classification_witness :
    (run wEnv).storeArg = some wS1 ∧
    wS1.future_spot_prices = futureRecords wEnv.now (decorateFrom wEnv 0 [wsA, wsB]) ∧
    (∀ r, r ∈ wS1.future_spot_prices ↔
      r ∈ decorateFrom wEnv 0 [wsA, wsB] ∧ wEnv.now < r.till) :=
  ⟨rfl, future_classification wEnv (some wStatePrev) [wsA, wsB] rfl rfl rfl
    (fun _ _ => rfl) wS1 rfl⟩

/-- C5 counterexample: an operation that fails on attempts 1, 2 and 3 and
succeeds on attempt 4 is given a fourth attempt by the wrapper and makes the
wrapped call succeed, so the wrapper does not stop after 3 total attempts as
the claim states (`take(3)` bounds the retries after the initial attempt, not
the total attempts). -/
theorem retry_budget_counterexample :
    retrySpawn (fun n => if 4 ≤ n then .ok () else .error "transient") = (.ok (), 4) ∧
    ¬(retrySpawn
        (fun n => if 4 ≤ n then (Except.ok () : Except String Unit)
          else .error "transient")).2 ≤ 3 := by
  constructor
  · rfl
  · have h : (retrySpawn
        (fun n => if 4 ≤ n then (Except.ok () : Except String Unit)
          else .error "transient")).2 = 4 := rfl
    rw [h]
    decide

/-- C5 (amended): the retry wrapper around the fetch and insert operations
makes at most 4 total attempts (the initial attempt plus up to `retryDelays = 3`
retries); an operation that fails on attempts 1 and 2 and succeeds on attempt 3
makes the wrapped call succeed within the budget, and an operation that fails
on every attempt exhausts the budget after 4 attempts and surfaces the fourth
attempt's error unchanged. -/
theorem retry_budget (op : Nat → Except String A) :
    (retrySpawn op).2 ≤ 4 ∧
    (∀ a e1 e2, op 1 = .error e1 → op 2 = .error e2 → op 3 = .ok a →
      retrySpawn op = (.ok a, 3)) ∧
    (∀ f : Nat → String, (∀ n, op n = .error (f n)) →
      retrySpawn op = (.error (f 4), 4)) := by
  refine ⟨?_, ?_, ?_⟩
  · have key : ∀ (rem att : Nat), (retryGo op att rem).2 ≤ att + rem := by
      intro rem
      induction rem with
      | zero =>
        intro att
        rw [retryGo]
        cases op att <;> simp
      | succ r ih =>
        intro att
        rw [retryGo]
        cases op att with
        | ok a => simp
        | error e =>
          simp only []
          calc (retryGo op (att + 1) r).2 ≤ att + 1 + r := ih (att + 1)
            _ = att + (r + 1) := by omega
    exact key retryDelays 1
  · intro a e1 e2 hf1 hf2 hs3
    simp [retrySpawn, retryDelays, retryGo, hf1, hf2, hs3]
  · intro f hf
    simp [retrySpawn, retryDelays, retryGo, hf 1, hf 2, hf 3, hf 4]

/-- C5 witness: a concrete operation failing on attempts 1 and 2 and
succeeding on attempt 3 makes the wrapped call succeed after exactly 3
attempts. -/
theorem retry_budget_witness :
    retrySpawn (fun n => if 3 ≤ n then (Except.ok () : Except String Unit)
      else .error "transient") = (.ok (), 3) :=
  (retry_budget _).2.1 () "transient" "transient" rfl rfl rfl

/-- C6: a schema-initialization failure aborts the run with that error before
any fetch attempt (zero fetch attempts, no writes, no state write); a fetch
that fails after exhausted retries aborts the run with that error having
performed no sink insert and no state write — the fetch happens strictly
before any per-record write. -/
theorem fetch_failure_aborts (env : RunEnv) :
    (∀ e, env.initTable = .error e →
      run env =
        { writes := [], storeArg := none, fetchAttempts := 0,
          result := .error e }) ∧
    (∀ st0 e k, env.initTable = .ok () → env.readState = .ok st0 →
      retrySpawn env.fetch = (.error e, k) →
      run env =
        { writes := [], storeArg := none, fetchAttempts := k,
          result := .error e }) := by
  constructor
  · intro e h
    simp [run, h]
  · intro st0 e k h1 hr hf
    simp [run, h1, hr, hf]

/-- C6 witness: the fixture environment whose fetch always fails aborts after
its 4 fetch attempts with the fetch error, no writes and no state write. -/
theorem fetch_failure_aborts_witness :
    run wEnvFetchFail =
      { writes := [], storeArg := none, fetchAttempts := 4,
        result := .error "boom" } :=
  (fetch_failure_aborts wEnvFetchFail).2 (some wStatePrev) "boom" 4 rfl rfl rfl

/-- C7: `read_state` never returns an error: when the store is disabled, when
reading the state file fails (absent or unreadable), and when its contents
fail to parse, it returns `Ok(None)`; a run with no previous state classifies
every record as new. -/
theorem read_state_never_errors (enable : Bool) (rf : Except String String)
    (ps : String → Except String State) :
    (∃ r, read_state enable rf ps = .ok r) ∧
    (enable = false → read_state enable rf ps = .ok none) ∧
    (∀ e, rf = .error e → read_state enable rf ps = .ok none) ∧
    (∀ c e, rf = .ok c → ps c = .error e → read_state enable rf ps = .ok none) ∧
    (∀ sp, shouldWrite none sp = true) := by
  refine ⟨?_, ?_, ?_, ?_, fun sp => rfl⟩
  · cases enable with
    | false => exact ⟨none, rfl⟩
    | true =>
      cases rf with
      | error e => exact ⟨none, rfl⟩
      | ok c =>
        cases hp : ps c with
        | error e => exact ⟨none, by simp [read_state, hp]⟩
        | ok st => exact ⟨some st, by simp [read_state, hp]⟩
  · intro h
    subst h
    rfl
  · intro e h
    subst h
    cases enable <;> rfl
  · intro c e hc hp
    subst hc
    cases enable with
    | false => rfl
    | true => simp [read_state, hp]

/-- C7 witness: a parse failure on concrete file contents yields `Ok(None)`. -/
theorem read_state_never_errors_witness :
    read_state true (.ok "gibberish") (fun _ => .error "parse") = .ok none :=
  (read_state_never_errors true (.ok "gibberish")
    (fun _ => .error "parse")).2.2.2.1 "gibberish" "parse" rfl rfl

/-- The push loop of `get_spot_prices` appends one converted record per
quotation, in order. -/
theorem pushQuotes_eq (l : List SpotPricePrice) :
    ∀ acc, pushQuotes acc l = acc ++ l.map quoteToSpotPrice := by
  induction l with
  | nil => intro acc; simp [pushQuotes]
  | cons q rest ih =>
    intro acc
    simp [pushQuotes, quoteToSpotPrice, ih, List.append_assoc]

/-- C8: for a successfully parsed response with at least one home,
`get_spot_prices` returns the quotations of `today` followed by those of
`tomorrow`, each converted into a record whose window start is the quotation
start, whose window end is the start plus one hour, whose market price and tax
are copied from the quotation, and whose sourcing-markup and energy-tax
components are zero; the count is `|today| + |tomorrow|`. -/
theorem spot_price_mapping (resp : SpotPriceResponse) (home : SpotPriceHome)
    (rest : List SpotPriceHome)
    (hh : resp.data.viewer.homes = home :: rest) :
    get_spot_prices resp =
      some (home.current_subscription.price_info.today.map quoteToSpotPrice ++
        home.current_subscription.price_info.tomorrow.map quoteToSpotPrice) ∧
    (∀ l, get_spot_prices resp = some l →
      l.length = home.current_subscription.price_info.today.length +
        home.current_subscription.price_info.tomorrow.length) ∧
    (∀ q, (quoteToSpotPrice q).from_ = q.starts_at ∧
      (quoteToSpotPrice q).till = q.starts_at + oneHour ∧
      (quoteToSpotPrice q).market_price = q.energy ∧
      (quoteToSpotPrice q).market_price_tax = q.tax ∧
      (quoteToSpotPrice q).sourcing_markup_price = 0 ∧
      (quoteToSpotPrice q).energy_tax_price = 0) := by
  have hmain : get_spot_prices resp =
      some (home.current_subscription.price_info.today.map quoteToSpotPrice ++
        home.current_subscription.price_info.tomorrow.map quoteToSpotPrice) := by
    simp [get_spot_prices, hh, pushQuotes_eq]
  refine ⟨hmain, ?_, fun q => ⟨rfl, rfl, rfl, rfl, rfl, rfl⟩⟩
  intro l hl
  rw [hmain, Option.some.injEq] at hl
  subst hl
  simp

/-- C8 witness: the fixture response has one home with one quotation today and
one tomorrow; the conclusion of `spot_price_mapping` evaluates there. -/
theorem spot_price_mapping_witness :
    get_spot_prices wResp =
      some (wHome.current_subscription.price_info.today.map quoteToSpotPrice ++
        wHome.current_subscription.price_info.tomorrow.map quoteToSpotPrice) ∧
    (∀ l, get_spot_prices wResp = some l →
      l.length = wHome.current_subscription.price_info.today.length +
        wHome.current_subscription.price_info.tomorrow.length) ∧
    (∀ q, (quoteToSpotPrice q).from_ = q.starts_at ∧
      (quoteToSpotPrice q).till = q.starts_at + oneHour ∧
      (quoteToSpotPrice q).market_price = q.energy ∧
      (quoteToSpotPrice q).market_price_tax = q.tax ∧
      (quoteToSpotPrice q).sourcing_markup_price = 0 ∧
      (quoteToSpotPrice q).energy_tax_price = 0) :=
  spot_price_mapping wResp wHome [] rfl

/-- C9: `get_spot_prices` indexes `homes[0]` unconditionally, so (with the
panic modelled as `none`) it fails to return a value exactly when the parsed
response's homes list is empty; any response with at least one home yields a
value. -/
theorem homes_empty_panics (resp : SpotPriceResponse) :
    get_spot_prices resp = none ↔ resp.data.viewer.homes = [] := by
  cases hh : resp.data.viewer.homes with
  | nil => simp [get_spot_prices, hh]
  | cons home rest => simp [get_spot_prices, hh]

/-- C10: with the state store disabled, `read_state` returns `Ok(None)` and
`store_state` returns `Ok(())` whatever the storage backend would do (no
storage call is consulted); consequently a run that reads no previous state
and fetches successfully (with succeeding inserts) classifies every fetched
record as new and writes all of them to the sink. -/
theorem disabled_state_store :
    (∀ rf ps, read_state false rf ps = .ok none) ∧
    (∀ statePath envS st, store_state false statePath envS st = .ok ()) ∧
    (∀ env S, env.initTable = .ok () → env.readState = .ok none →
      (retrySpawn env.fetch).1 = .ok S → (∀ sp a, env.insert sp a = .ok ()) →
      (run env).writes = decorateFrom env 0 S) := by
  refine ⟨fun rf ps => rfl, fun statePath envS st => rfl, ?_⟩
  intro env S h1 hr h2 h3
  rw [run_spec env none S h1 hr h2 h3]
  exact writtenRecords_none _

/-- C10 witness: the disabled-store paths return their fixed values on
concrete arguments, and the fixture run with no previous state writes every
fetched record. -/
theorem disabled_state_store_witness :
    read_state false (.error "absent") (fun _ => .error "parse") = .ok none ∧
    store_state false "/configs/state.yaml"
      { getConfigmap := .error "offline", serialize := fun _ => .ok "yaml",
        fileNameOf := fun _ => some "state.yaml",
        replaceConfigmap := fun _ => .error "offline" }
      { future_spot_prices := [], last_from := 0 } = .ok () ∧
    (run wEnvNoState).writes = decorateFrom wEnvNoState 0 [wsA, wsB] :=
  ⟨(disabled_state_store).1 (.error "absent") (fun _ => .error "parse"),
    (disabled_state_store).2.1 "/configs/state.yaml" _ _,
    (disabled_state_store).2.2 wEnvNoState [wsA, wsB] rfl rfl rfl (fun _ _ => rfl)⟩
